import Mathlib

/-!
Shallow embedding of the request-handling logic of the OKED catalogue
backend (src/server.js): the POST /api/claude handler (validation, cache
key, fallback chain, provider error mapping), the GET /api/statistics
handler, and the GET /api/oked/sections handler.

Modelling conventions:
* JavaScript values reaching a message field are modelled by `JVal`
  (string, number, boolean, null, undefined); JS truthiness is `JVal.truthy`.
* A request body's `messages` field is `Option (List MsgElem)`:
  `none` models an absent or non-array value (both fail the same
  `!messages || !Array.isArray(messages)` check in the source); an array
  element is either an object (its role/content fields) or a non-object
  value.  Property access on a null element throws a TypeError, which the
  handler's try/catch turns into a 500 — the validation loop therefore
  has a thrown outcome besides failure and success.
* The `model` field is a `JVal`; the destructuring default
  `model = 'claude-3-5-sonnet-20241022'` applies exactly when the field is
  `undefined`, as in JS.
* JS string length (`content.length`) counts UTF-16 code units: `utf16Len`.
* The provider (`anthropic.messages.create`) is an oracle parameter
  `ProviderCall → Except ProviderError ProviderResponse`; the handler
  records the calls it makes so that invocation counts can be stated.
* The NodeCache instance is an association list; entries present model
  unexpired entries (claims speak of requests "within the TTL window").
-/

/-- A JavaScript primitive value as it can appear in a parsed JSON body. -/
inductive JVal where
  | vstr : String → JVal
  | vnum : Int → JVal
  | vbool : Bool → JVal
  | vnull : JVal
  | vundef : JVal
deriving DecidableEq, Repr

/-- JS truthiness: empty string, 0, false, null and undefined are falsy. -/
def JVal.truthy : JVal → Bool
  | .vstr s => !s.data.isEmpty
  | .vnum n => n != 0
  | .vbool b => b
  | .vnull => false
  | .vundef => false

/-- `typeof v === 'string'`. -/
def JVal.isString : JVal → Bool
  | .vstr _ => true
  | _ => false

/-- The underlying string of a string value (only used after `isString`). -/
def JVal.asString : JVal → String
  | .vstr s => s
  | _ => ""

/-- UTF-16 length of a character list (JS `String.prototype.length`):
astral-plane characters count as two code units. -/
def utf16LenL : List Char → Nat
  | [] => 0
  | c :: cs => (if c.toNat < 65536 then 1 else 2) + utf16LenL cs

/-- UTF-16 length of a string, as JS `.length` reports it. -/
def utf16Len (s : String) : Nat := utf16LenL s.data

/-- `.length` of a JS value when it is a string (only used after `isString`). -/
def JVal.utf16Length : JVal → Nat
  | .vstr s => utf16Len s
  | _ => 0

/-- `n` is a leading segment of `h` (character lists). -/
def leadsList : List Char → List Char → Bool
  | [], _ => true
  | _ :: _, [] => false
  | a :: as, b :: bs => a == b && leadsList as bs

/-- `n` occurs as a contiguous segment of `h` (character lists). -/
def containsSub (n : List Char) : List Char → Bool
  | [] => n.isEmpty
  | b :: bs => leadsList n (b :: bs) || containsSub n bs

/-- JS `hay.includes(needle)`: substring containment. -/
def strIncludes (hay needle : String) : Bool := containsSub needle.data hay.data

/-- One character of JS `String.prototype.toLowerCase`, restricted to the
Basic Latin and Cyrillic letters occurring in this repository's strings. -/
def jsLowerChar (c : Char) : Char :=
  if 65 ≤ c.toNat ∧ c.toNat ≤ 90 then Char.ofNat (c.toNat + 32)
  else if 1040 ≤ c.toNat ∧ c.toNat ≤ 1071 then Char.ofNat (c.toNat + 32)
  else if c.toNat = 1025 then Char.ofNat 1105
  else c

/-- JS `s.toLowerCase()` over the alphabets used by the fallback keywords. -/
def jsLower (s : String) : String := String.mk (s.data.map jsLowerChar)

/-- One hexadecimal digit (lowercase), for JSON escape sequences. -/
def hexDigit (n : Nat) : Char :=
  if n < 10 then Char.ofNat (48 + n) else Char.ofNat (87 + n)

/-- Four-digit hexadecimal rendering of a code point below 0x10000. -/
def hex4 (n : Nat) : String :=
  String.mk [hexDigit (n / 4096 % 16), hexDigit (n / 256 % 16),
             hexDigit (n / 16 % 16), hexDigit (n % 16)]

/-- Escape of one character inside a JSON string literal, as
`JSON.stringify` produces it. -/
def jsonEscChar (c : Char) : String :=
  if c.toNat = 34 then "\\\""
  else if c.toNat = 92 then "\\\\"
  else if c = Char.ofNat 8 then "\\b"
  else if c = Char.ofNat 9 then "\\t"
  else if c = Char.ofNat 10 then "\\n"
  else if c = Char.ofNat 12 then "\\f"
  else if c = Char.ofNat 13 then "\\r"
  else if c.toNat < 32 then "\\u" ++ hex4 c.toNat
  else String.mk [c]

/-- `JSON.stringify` of a string. -/
def jsonStr (s : String) : String :=
  "\"" ++ String.join (s.data.map jsonEscChar) ++ "\""

/-- `JSON.stringify` of a JS value in object-property position; `none`
models the omission of properties whose value is `undefined`. -/
def JVal.jsonProp : JVal → Option String
  | .vstr s => some (jsonStr s)
  | .vnum n => some (toString n)
  | .vbool b => some (if b then "true" else "false")
  | .vnull => some "null"
  | .vundef => none

/-- The role/content fields of an object element of the `messages` array
(extra properties a client might send are not modelled; see `messageJson`). -/
structure Message where
  role : JVal
  content : JVal
deriving DecidableEq, Repr

/-- One raw element of the `messages` array as JSON.parse can produce it:
an object, or a non-object value (null, number, string, boolean). -/
inductive MsgElem where
  | obj : Message → MsgElem
  | prim : JVal → MsgElem
deriving DecidableEq, Repr

/-- JS property access `e.role` / `e.content` on an array element:
`none` models the TypeError thrown on null (or undefined); a non-null
primitive is boxed and yields `undefined` for both properties; an object
yields its fields. -/
def MsgElem.fields : MsgElem → Option Message
  | .obj m => some m
  | .prim JVal.vnull => none
  | .prim JVal.vundef => none
  | .prim _ => some ⟨JVal.vundef, JVal.vundef⟩

/-- `JSON.stringify` of one message object (properties in role, content
order; `undefined` properties omitted). -/
def messageJson (m : Message) : String :=
  let props := ([("role", m.role.jsonProp), ("content", m.content.jsonProp)]).filterMap
    (fun pv => pv.2.map (fun v => jsonStr pv.1 ++ ":" ++ v))
  "\x7b" ++ String.intercalate "," props ++ "\x7d"

/-- `JSON.stringify(messages)`. -/
def messagesJson (ms : List Message) : String :=
  "[" ++ String.intercalate "," (ms.map messageJson) ++ "]"

/-- The cache key of the /api/claude handler:
`` `enhanced_claude_${JSON.stringify(messages)}` ``. The model is not part
of the key. -/
def cacheKey (ms : List Message) : String :=
  "enhanced_claude_" ++ messagesJson ms

/-- The parsed body of a POST /api/claude request. `messages = none`
models an absent or non-array field; array elements are raw `MsgElem`s. -/
structure ClaudeBody where
  messages : Option (List MsgElem)
  model : JVal
deriving DecidableEq, Repr

/-- Token-usage metadata reported by the provider (`response.usage`). -/
structure Usage where
  inputTokens : Nat
  outputTokens : Nat
deriving DecidableEq, Repr

/-- A successful provider reply: `response.content[0].text` and usage. -/
structure ProviderResponse where
  text : String
  usage : Usage
deriving DecidableEq, Repr

/-- A provider failure; `status` models the optional `error.status` field. -/
structure ProviderError where
  status : Option Nat
deriving DecidableEq, Repr

/-- One invocation of `anthropic.messages.create` (temperature is the
constant 0.3 in both call sites and is omitted). -/
structure ProviderCall where
  model : JVal
  maxTokens : Nat
  messages : List Message
deriving DecidableEq, Repr

/-- A 200-response body of the /api/claude handler, as stored in the cache:
the three object shapes the source builds.  The JS field values are exposed
by the accessors below; `enhanced`, `queryType`, `fallback` are determined
by the shape. -/
inductive Payload where
  | enhancedR : String → Usage → String → Payload
  | basicR : String → Usage → Payload
  | offlineR : String → Payload
deriving DecidableEq, Repr

/-- The `content` field of a payload. -/
def Payload.contentField : Payload → String
  | .enhancedR c _ _ => c
  | .basicR c _ => c
  | .offlineR c => c

/-- The `enhanced` field of a payload. -/
def Payload.enhancedField : Payload → Bool
  | .enhancedR .. => true
  | .basicR .. => false
  | .offlineR _ => false

/-- The `fallback` field of a payload (`none` = property absent). -/
def Payload.fallbackField : Payload → Option Bool
  | .enhancedR .. => none
  | .basicR .. => none
  | .offlineR _ => some true

/-- One record of the mock OKED sections table. -/
structure Section where
  code : String
  name : String
  description : String
deriving DecidableEq, Repr

/-- The `{ data: sections, cached: false }` body of /api/oked/sections. -/
structure SectionsVal where
  data : List Section
  cached : Bool
deriving DecidableEq, Repr

/-- A value stored in the shared NodeCache instance (the /api/claude and
/api/oked/sections handlers store different object shapes under disjoint
key spaces). -/
inductive CacheVal where
  | claude : Payload → CacheVal
  | sections : SectionsVal → CacheVal
deriving DecidableEq, Repr

/-- The process-wide NodeCache, as an association list over live
(unexpired) entries; newest entry first. -/
abbrev Cache := List (String × CacheVal)

/-- `cache.get(key)`. -/
def cacheGet (c : Cache) (k : String) : Option CacheVal :=
  (c.find? (fun e => e.1 == k)).map (fun e => e.2)

/-- `cache.set(key, value)`. -/
def cacheSet (c : Cache) (k : String) (v : CacheVal) : Cache :=
  (k, v) :: c

/-- A JSON HTTP response body: either `{ error: msg }` or a stored value. -/
inductive ResponseBody where
  | errorMsg : String → ResponseBody
  | cacheVal : CacheVal → ResponseBody
deriving DecidableEq, Repr

/-- An HTTP response: status code and JSON body. -/
inductive HttpResponse where
  | json : Nat → ResponseBody → HttpResponse
deriving DecidableEq, Repr

/-- What one run of the /api/claude handler produced: the response, the
cache after the run, and the provider calls made (in order). -/
structure HandlerOutcome where
  response : HttpResponse
  cache : Cache
  calls : List ProviderCall
deriving DecidableEq, Repr

/-- The model allow-list of the /api/claude handler. -/
def allowedModels : List String :=
  ["claude-3-5-sonnet-20241022", "claude-3-haiku-20240307", "claude-3-opus-20240229"]

/-- The destructuring default for the `model` field. -/
def defaultModel : String := "claude-3-5-sonnet-20241022"

/-- `allowedModels.includes(model)` for a JS value (strict equality). -/
def modelAllowed (m : JVal) : Bool :=
  allowedModels.any (fun s => m == JVal.vstr s)

/-- Outcome of the per-message validation loop: a TypeError escaped to
the surrounding try/catch, the first failing check's 400 message, or the
role/content records of all (necessarily object) elements in order. -/
inductive LoopOutcome where
  | thrown : LoopOutcome
  | failed : String → LoopOutcome
  | ok : List Message → LoopOutcome
deriving DecidableEq, Repr

/-- The per-message validation loop of the /api/claude handler: elements
in order, each one's property access first (throwing on a null element),
then the four checks, short-circuiting at the first failure. -/
def validateMessages : List MsgElem → LoopOutcome
  | [] => .ok []
  | e :: rest =>
    match e.fields with
    | none => .thrown
    | some m =>
      if !(m.role.truthy && m.content.truthy) then
        .failed "Invalid message format: role and content required"
      else if !(m.role == JVal.vstr "user" || m.role == JVal.vstr "assistant"
          || m.role == JVal.vstr "system") then
        .failed "Invalid message role"
      else if !m.content.isString then
        .failed "Message content must be a string"
      else if m.content.utf16Length > 10000 then
        .failed "Message content too long"
      else
        match validateMessages rest with
        | .ok msgs => .ok (m :: msgs)
        | r => r

/-- The destructuring default `model = 'claude-3-5-sonnet-20241022'`:
applies exactly when the body's `model` field is `undefined`. -/
def effectiveModel (mv : JVal) : JVal :=
  if mv == JVal.vundef then JVal.vstr defaultModel else mv

/-- Verdict of the whole validation sequence: a 400 rejection, a thrown
TypeError (escapes to the handler's catch), or the validated messages
with the (defaulted) model. -/
inductive ValidateResult where
  | reject : String → ValidateResult
  | thrown : ValidateResult
  | valid : List Message → JVal → ValidateResult
deriving DecidableEq, Repr

/-- The validation sequence of the /api/claude handler, exactly in source
order; on success returns the messages list and the (defaulted) model. -/
def validateClaude (body : ClaudeBody) : ValidateResult :=
  match body.messages with
  | none => .reject "Messages array is required"
  | some elems =>
    if elems.length = 0 then .reject "Messages array cannot be empty"
    else if elems.length > 50 then .reject "Too many messages in conversation"
    else
      match validateMessages elems with
      | .thrown => .thrown
      | .failed e => .reject e
      | .ok msgs =>
        if !(modelAllowed (effectiveModel body.model)) then .reject "Invalid model specified"
        else .valid msgs (effectiveModel body.model)

/-- `messages.find(m => m.role === 'user')`. -/
def findUserMessage (ms : List Message) : Option Message :=
  ms.find? (fun m => m.role == JVal.vstr "user")

/-- The top-level catch of the /api/claude handler, mapping any caught
error by its optional `status` field: a provider error carries its
status; a TypeError thrown in the validation loop has none. -/
def errorStatusResponse (e : ProviderError) : HttpResponse :=
  if e.status = some 429 then
    .json 429 (.errorMsg "Rate limit exceeded. Please try again later.")
  else if e.status = some 400 then
    .json 400 (.errorMsg "Invalid request format")
  else
    .json 500 (.errorMsg "Internal server error")

/-- The enhanced-prompt template text before the interpolated user query
(including the opening quote around the query). -/
def enhancedPromptPre : String :=
  "You are an expert OKED (Kazakhstan Economic Activity Classification) consultant and business intelligence analyst for Kazakhstan.\n\nCONTEXT: OKED Classification System\n- OKED is Kazakhstan\x27s standard for economic activity classification\n- Based on international NACE Rev.2 standards  \n- Hierarchical structure: Sections (A-U) → Groups (2-digit) → Classes (3-digit) → Subclasses (4-digit) → Activities (5-digit)\n- Required for business registration, taxation, and statistical reporting\n\nKAZAKHSTAN BUSINESS STATISTICS (Official stat.gov.kz data):\n- Total Registered Entities: 2,383,083 businesses\n- Legal Entities: 543,725 (22.8%) - Medium to large businesses\n- Individual Entrepreneurs: 1,839,358 (77.2%) - Small business backbone\n- Annual Growth Rate: 4.5% sustainable growth over past decade\n- Active Business Rate: ~85% of registered entities remain operational\n\nSECTOR DISTRIBUTION:\n- Trade & Services (Sections G, I, M, N): 60% of businesses - Stable growth\n- Manufacturing (Section C): 15% - Technology modernization focus\n- Construction (Section F): 8% - Infrastructure boom \n- Agriculture (Section A): 12% - Digitalization opportunities\n- IT & Communications (Section J): 3% - Fastest growing (+12.3% annually)\n- Other Sectors: 2% - Specialized services\n\nREGIONAL DISTRIBUTION:\n- Almaty: 35% of businesses - Financial & tech hub, high competition\n- Nur-Sultan: 28% - Government & corporate services, growing startups  \n- Shymkent: 8% - Manufacturing & trade opportunities\n- Atyrau/Mangystau: 6% - Energy sector, service gaps\n- Other Regions: 23% - Agriculture & regional services, expansion potential\n\nMARKET OPPORTUNITIES:\n- High-Growth Sectors: IT (+12.3%), E-commerce (+8.7%), Renewable Energy (+6.2%)\n- Emerging Markets: AgriTech, FinTech, Green Technology, Tourism Tech\n- Investment: $24.3B foreign investment in 2023 (energy, mining, technology)\n- Government Support: Tax incentives, special economic zones, digital grants\n\nUSER QUERY: \""

/-- The enhanced-prompt template text after the interpolated user query
(starting with the closing quote around the query). -/
def enhancedPromptPost : String :=
  "\"\n\nINSTRUCTIONS:\n1. Respond in the same language as the user\x27s query (e.g., if the query is in Russian, respond in Russian).\n2. Provide comprehensive, accurate information about OKED classification \n3. Include relevant business statistics for Kazakhstan when discussing industries\n4. Format responses as JSON with this structure:\n\x7b\n  \"response\": \"detailed answer with Kazakhstan business context\",\n  \"codes\": [\x7b\"code\": \"XXXXX\", \"name\": \"Activity name\", \"level\": \"Activity level\", \"explanation\": \"relevance\"\x7d],\n  \"suggestions\": [\"related query 1\", \"related query 2\", \"related query 3\"],\n  \"confidence\": \"high|medium|low\",\n  \"queryType\": \"business_stats|knowledge|search|code\"\n\x7d\n\n4. For business statistics queries, include real Kazakhstan data and growth trends\n5. For OKED codes, provide complete hierarchy and examples\n6. Always include actionable suggestions for follow-up queries\n7. Use official Kazakhstan business intelligence when available"

/-- The full enhanced prompt built from the first user message's content. -/
def enhancedPrompt (userContent : String) : String :=
  enhancedPromptPre ++ userContent ++ enhancedPromptPost

/-- One entry of the `codes` array of a canned fallback answer. -/
structure FallbackCode where
  code : String
  name : String
  level : String
  explanation : String
deriving DecidableEq, Repr

/-- `JSON.stringify` of one fallback `codes` entry. -/
def jsonFallbackCode (c : FallbackCode) : String :=
  "\x7b\"code\":" ++ jsonStr c.code ++ ",\"name\":" ++ jsonStr c.name
    ++ ",\"level\":" ++ jsonStr c.level ++ ",\"explanation\":" ++ jsonStr c.explanation ++ "\x7d"

/-- `JSON.stringify` of an array given its already-serialized elements. -/
def jsonArr (items : List String) : String :=
  "[" ++ String.intercalate "," items ++ "]"

/-- The fixed `warnings` array of every fallback result. -/
def fallbackWarnings : List String :=
  ["Система работает без подключения к AI",
   "Рекомендуется настроить ANTHROPIC_API_KEY для полной функциональности"]

/-- `JSON.stringify` of the object placed in the `content` field of a
fallback result (properties in source insertion order; `confidence` is
always "low" and `fallback` always true there). -/
def fallbackContentJson (resp : String) (codes : List FallbackCode)
    (suggestions : List String) : String :=
  "\x7b\"response\":" ++ jsonStr resp
    ++ ",\"codes\":" ++ jsonArr (codes.map jsonFallbackCode)
    ++ ",\"suggestions\":" ++ jsonArr (suggestions.map jsonStr)
    ++ ",\"confidence\":\"low\""
    ++ ",\"warnings\":" ++ jsonArr (fallbackWarnings.map jsonStr)
    ++ ",\"fallback\":true\x7d"

/-- Response text of the food-service branch of the fallback generator. -/
def restaurantResponse (userQuery : String) : String :=
  "По запросу \"" ++ userQuery ++ "\" найдены коды, связанные с общественным питанием. Рестораны и кафе классифицируются в секции I \"Предоставление услуг по проживанию и питанию\"."

/-- `codes` of the food-service branch. -/
def restaurantCodes : List FallbackCode :=
  [⟨"56100", "Деятельность ресторанов и кафе", "Подкласс", "Основная деятельность ресторанов"⟩]

/-- `suggestions` of the food-service branch. -/
def restaurantSuggestions : List String :=
  ["Различия между ресторанами и кафе", "Классификация предприятий общественного питания"]

/-- Response text of the retail branch of the fallback generator. -/
def shopResponse (userQuery : String) : String :=
  "По запросу \"" ++ userQuery ++ "\" найдены коды розничной торговли. Торговые предприятия классифицируются в секции G \"Оптовая и розничная торговля\"."

/-- `codes` of the retail branch. -/
def shopCodes : List FallbackCode :=
  [⟨"47111", "Розничная торговля в неспециализированных магазинах", "Подкласс", "Основная розничная торговля"⟩]

/-- `suggestions` of the retail branch. -/
def shopSuggestions : List String :=
  ["Различия между оптовой и розничной торговлей", "Классификация торговых точек"]

/-- Response text of the software branch of the fallback generator. -/
def softwareResponse (userQuery : String) : String :=
  "По запросу \"" ++ userQuery ++ "\" найдены коды IT-деятельности. Разработка программного обеспечения классифицируется в секции J \"Информация и связь\"."

/-- `codes` of the software branch. -/
def softwareCodes : List FallbackCode :=
  [⟨"62010", "Разработка программного обеспечения", "Подкласс", "Основная IT-деятельность"⟩]

/-- `suggestions` of the software branch. -/
def softwareSuggestions : List String :=
  ["IT-консалтинг", "Веб-разработка", "Системная интеграция"]

/-- Response text of the generic offline branch of the fallback generator. -/
def offlineResponse (userQuery : String) : String :=
  "По запросу \"" ++ userQuery ++ "\" система работает в режиме офлайн. Для получения точной информации по классификации ОКЭД рекомендуется настроить подключение к Anthropic API."

/-- `suggestions` of the generic offline branch. -/
def offlineSuggestions : List String :=
  ["Попробуйте более конкретные термины", "Обратитесь к специалисту по ОКЭД", "Настройте API ключ для расширенной функциональности"]

/-- `generateFallbackResponse(userQuery, ...)`: keyword-match the
lower-cased query (`queryLower`) against the three keyword sets in source
order and build the canned payload — `content` is the serialized object,
`fallback` is true and `enhanced` false — of the first matching branch.
The source assigns `response`/`codes`/`suggestions` in each branch and
serializes once at the end; the serialization is inlined per branch here,
producing the same value. -/
def generateFallbackResponse (userQuery : String) : Payload :=
  if strIncludes (jsLower userQuery) "ресторан" || strIncludes (jsLower userQuery) "кафе"
      || strIncludes (jsLower userQuery) "питание"
      || strIncludes (jsLower userQuery) "restaurant" then
    Payload.offlineR
      (fallbackContentJson (restaurantResponse userQuery) restaurantCodes restaurantSuggestions)
  else if strIncludes (jsLower userQuery) "магазин"
      || strIncludes (jsLower userQuery) "торговля"
      || strIncludes (jsLower userQuery) "продажа" then
    Payload.offlineR (fallbackContentJson (shopResponse userQuery) shopCodes shopSuggestions)
  else if strIncludes (jsLower userQuery) "программирование"
      || strIncludes (jsLower userQuery) "софт"
      || strIncludes (jsLower userQuery) "it" then
    Payload.offlineR
      (fallbackContentJson (softwareResponse userQuery) softwareCodes softwareSuggestions)
  else
    Payload.offlineR (fallbackContentJson (offlineResponse userQuery) [] offlineSuggestions)

/-- The first (enhanced) provider invocation of the /api/claude handler:
a single synthetic user message carrying the enhanced prompt. -/
def enhancedCall (model : JVal) (userContent : String) : ProviderCall :=
  ⟨model, 4000, [⟨JVal.vstr "user", JVal.vstr (enhancedPrompt userContent)⟩]⟩

/-- The second (retry) provider invocation: the original message list
passed verbatim. -/
def rawCall (model : JVal) (messages : List Message) : ProviderCall :=
  ⟨model, 4000, messages⟩

/-- The POST /api/claude handler.  `apiKey` models whether
`process.env.ANTHROPIC_API_KEY` is set; `provider` is the
`anthropic.messages.create` oracle. -/
def handleClaude (apiKey : Bool)
    (provider : ProviderCall → Except ProviderError ProviderResponse)
    (cache : Cache) (body : ClaudeBody) : HandlerOutcome :=
  match validateClaude body with
  | .reject e => ⟨.json 400 (.errorMsg e), cache, []⟩
  | .thrown => ⟨errorStatusResponse ⟨none⟩, cache, []⟩
  | .valid messages model =>
    match findUserMessage messages with
    | none => ⟨.json 400 (.errorMsg "No user message found"), cache, []⟩
    | some userMessage =>
      match cacheGet cache (cacheKey messages) with
      | some cached => ⟨.json 200 (.cacheVal cached), cache, []⟩
      | none =>
        if !apiKey then
          ⟨.json 200 (.cacheVal (.claude (generateFallbackResponse userMessage.content.asString))),
           cacheSet cache (cacheKey messages)
             (.claude (generateFallbackResponse userMessage.content.asString)), []⟩
        else
          match provider (enhancedCall model userMessage.content.asString) with
          | .ok r =>
            ⟨.json 200 (.cacheVal (.claude (.enhancedR r.text r.usage userMessage.content.asString))),
             cacheSet cache (cacheKey messages)
               (.claude (.enhancedR r.text r.usage userMessage.content.asString)),
             [enhancedCall model userMessage.content.asString]⟩
          | .error _ =>
            match provider (rawCall model messages) with
            | .ok r =>
              ⟨.json 200 (.cacheVal (.claude (.basicR r.text r.usage))),
               cacheSet cache (cacheKey messages) (.claude (.basicR r.text r.usage)),
               [enhancedCall model userMessage.content.asString, rawCall model messages]⟩
            | .error e2 =>
              ⟨errorStatusResponse e2, cache,
               [enhancedCall model userMessage.content.asString, rawCall model messages]⟩

/-- The OKED-code format test `/^[A-U]$|^\d{1,5}$/.test(okedCode)`. -/
def isOkedCode (s : String) : Bool :=
  (s.data.length = 1 && s.data.all (fun c => 65 ≤ c.toNat && c.toNat ≤ 85))
    || (1 ≤ s.data.length && s.data.length ≤ 5 && s.data.all Char.isDigit)

/-- The body of the 501 stub answer of GET /api/statistics. -/
def statsStubMsg : String :=
  "Real statistics integration in progress. See https://github.com/kazdatahelp/oked-catalogue-assistant/issues/6"

/-- The GET /api/statistics/:okedCode handler. -/
def handleStatistics (cache : Cache) (okedCode : String) : HttpResponse × Cache :=
  if okedCode.data.isEmpty then
    (.json 400 (.errorMsg "OKED code is required"), cache)
  else if !(isOkedCode okedCode) then
    (.json 400 (.errorMsg "Invalid OKED code format"), cache)
  else
    match cacheGet cache ("stats_" ++ okedCode) with
    | some cached => (.json 200 (.cacheVal cached), cache)
    | none => (.json 501 (.errorMsg statsStubMsg), cache)

/-- The fixed mock table of OKED sections. -/
def sectionsList : List Section :=
  [⟨"A", "Agriculture, forestry and fishing", "Section A - Agriculture"⟩,
   ⟨"B", "Mining and quarrying", "Section B - Mining"⟩,
   ⟨"C", "Manufacturing", "Section C - Manufacturing"⟩,
   ⟨"F", "Construction", "Section F - Construction"⟩,
   ⟨"G", "Wholesale and retail trade", "Section G - Trade"⟩,
   ⟨"I", "Accommodation and food service activities", "Section I - Hospitality"⟩,
   ⟨"J", "Information and communication", "Section J - IT & Communications"⟩,
   ⟨"M", "Professional, scientific and technical activities", "Section M - Professional Services"⟩]

/-- The GET /api/oked/sections handler. -/
def handleSections (cache : Cache) : HttpResponse × Cache :=
  match cacheGet cache "oked_sections" with
  | some cached => (.json 200 (.cacheVal cached), cache)
  | none =>
    let result : SectionsVal := ⟨sectionsList, false⟩
    (.json 200 (.cacheVal (.sections result)),
     cacheSet cache "oked_sections" (.sections result))

/-- The responses of `n` successive calls of GET /api/oked/sections,
starting from the given cache. -/
def sectionsRuns : Nat → Cache → List HttpResponse
  | 0, _ => []
  | n + 1, c => (handleSections c).1 :: sectionsRuns n (handleSections c).2

/-! ### Helper lemmas about the string and cache primitives -/

theorem containsSub_nil (t : List Char) : containsSub [] t = true := by
  cases t <;> simp [containsSub, leadsList]

theorem leadsList_append (n h t : List Char) (hp : leadsList n h = true) :
    leadsList n (h ++ t) = true := by
  induction n generalizing h with
  | nil => simp [leadsList]
  | cons a as ih =>
    cases h with
    | nil => simp [leadsList] at hp
    | cons b bs =>
      simp only [leadsList, Bool.and_eq_true] at hp
      simp only [List.cons_append, leadsList, Bool.and_eq_true]
      exact ⟨hp.1, ih bs hp.2⟩

theorem containsSub_append_of_left (n h t : List Char) (hc : containsSub n h = true) :
    containsSub n (h ++ t) = true := by
  induction h with
  | nil =>
    simp only [containsSub, List.isEmpty_iff] at hc
    subst hc
    exact containsSub_nil t
  | cons b bs ih =>
    simp only [containsSub, Bool.or_eq_true] at hc
    rcases hc with hp | hc
    · simp only [List.cons_append, containsSub, Bool.or_eq_true]
      exact Or.inl (leadsList_append n (b :: bs) t hp)
    · simp only [List.cons_append, containsSub, Bool.or_eq_true]
      exact Or.inr (ih hc)

theorem containsSub_append_of_right (n p h : List Char) (hc : containsSub n h = true) :
    containsSub n (p ++ h) = true := by
  induction p with
  | nil => exact hc
  | cons a as ih =>
    simp only [List.cons_append, containsSub, Bool.or_eq_true]
    exact Or.inr ih

theorem strIncludes_append_of_left (a b n : String) (h : strIncludes a n = true) :
    strIncludes (a ++ b) n = true := by
  unfold strIncludes at *
  rw [String.data_append]
  exact containsSub_append_of_left _ _ _ h

theorem strIncludes_append_of_right (a b n : String) (h : strIncludes b n = true) :
    strIncludes (a ++ b) n = true := by
  unfold strIncludes at *
  rw [String.data_append]
  exact containsSub_append_of_right _ _ _ h

theorem cacheGet_cacheSet_self (c : Cache) (k : String) (v : CacheVal) :
    cacheGet (cacheSet c k v) k = some v := by
  simp [cacheGet, cacheSet, List.find?]

/-! ### Helper lemmas about the validator -/

/-- Characterization of a successful validation run. -/
theorem validateClaude_valid_iff (b : ClaudeBody) (msgs : List Message) (model : JVal) :
    validateClaude b = .valid msgs model ↔
      ∃ elems, b.messages = some elems ∧
        model = effectiveModel b.model ∧
        elems.length ≠ 0 ∧ elems.length ≤ 50 ∧
        validateMessages elems = .ok msgs ∧ modelAllowed model = true := by
  unfold validateClaude
  cases hm : b.messages with
  | none => simp
  | some ms =>
    simp only [Option.some.injEq]
    constructor
    · intro h
      split at h
      · exact absurd h (by simp)
      · split at h
        · exact absurd h (by simp)
        · split at h
          · exact absurd h (by simp)
          · exact absurd h (by simp)
          · split at h
            · exact absurd h (by simp)
            · simp only [ValidateResult.valid.injEq] at h
              obtain ⟨rfl, rfl⟩ := h
              refine ⟨ms, rfl, rfl, by assumption, by omega, by assumption, ?_⟩
              rename_i hallow
              simpa using hallow
    · rintro ⟨elems, hms, hmodel, h0, h50, hvm, hallow⟩
      obtain rfl : ms = elems := hms
      rw [if_neg h0, if_neg (by omega), hvm, ← hmodel]
      rw [show (!modelAllowed model) = false by rw [hallow]; rfl]
      simp

/-- Validation rejections pass through the handler unchanged: a 400 with
the validator's message, no cache mutation, no provider call. -/
theorem handleClaude_validate_reject (k : Bool)
    (p : ProviderCall → Except ProviderError ProviderResponse)
    (c : Cache) (b : ClaudeBody) (e : String)
    (h : validateClaude b = .reject e) :
    handleClaude k p c b = ⟨.json 400 (.errorMsg e), c, []⟩ := by
  unfold handleClaude
  rw [h]

/-- A TypeError thrown in the validation loop reaches the top-level
catch, which (no status field) answers 500; no cache mutation, no
provider call. -/
theorem handleClaude_validate_thrown (k : Bool)
    (p : ProviderCall → Except ProviderError ProviderResponse)
    (c : Cache) (b : ClaudeBody)
    (h : validateClaude b = .thrown) :
    handleClaude k p c b = ⟨.json 500 (.errorMsg "Internal server error"), c, []⟩ := by
  unfold handleClaude
  simp only [h]
  rfl

/-! ### Helper lemmas about the /api/claude handler paths -/

/-- A missing user-role message yields the dedicated 400 with no cache
mutation and no provider call. -/
theorem handleClaude_no_user (k : Bool)
    (p : ProviderCall → Except ProviderError ProviderResponse)
    (c : Cache) (b : ClaudeBody) (msgs : List Message) (model : JVal)
    (hv : validateClaude b = .valid msgs model)
    (hu : findUserMessage msgs = none) :
    handleClaude k p c b = ⟨.json 400 (.errorMsg "No user message found"), c, []⟩ := by
  unfold handleClaude
  simp only [hv, hu]

/-- A cache hit is terminal: the stored value comes back as a 200, the
cache is untouched and the provider is not called. -/
theorem handleClaude_hit (k : Bool)
    (p : ProviderCall → Except ProviderError ProviderResponse)
    (c : Cache) (b : ClaudeBody) (msgs : List Message) (model : JVal)
    (u : Message) (v : CacheVal)
    (hv : validateClaude b = .valid msgs model)
    (hu : findUserMessage msgs = some u)
    (hc : cacheGet c (cacheKey msgs) = some v) :
    handleClaude k p c b = ⟨.json 200 (.cacheVal v), c, []⟩ := by
  unfold handleClaude
  simp only [hv, hu, hc]

/-- Whenever a run of the handler answers 200 with some value, that value
sits in the resulting cache under the messages list's key, and at most two
provider calls were made. -/
theorem handleClaude_response_200 (k : Bool)
    (p : ProviderCall → Except ProviderError ProviderResponse)
    (c : Cache) (b : ClaudeBody) (v : CacheVal)
    (h : (handleClaude k p c b).response = .json 200 (.cacheVal v)) :
    ∃ msgs model u, validateClaude b = .valid msgs model ∧
      findUserMessage msgs = some u ∧
      cacheGet (handleClaude k p c b).cache (cacheKey msgs) = some v ∧
      (handleClaude k p c b).calls.length ≤ 2 := by
  rcases hv : validateClaude b with e | - | ⟨msgs, model⟩
  · rw [handleClaude_validate_reject k p c b e hv] at h
    simp at h
  · rw [handleClaude_validate_thrown k p c b hv] at h
    simp at h
  · rcases hu : findUserMessage msgs with _ | u
    · rw [handleClaude_no_user k p c b msgs model hv hu] at h
      simp at h
    · rcases hc : cacheGet c (cacheKey msgs) with _ | w
      · cases k with
        | false =>
          have heq : handleClaude false p c b =
              ⟨.json 200 (.cacheVal (.claude (generateFallbackResponse u.content.asString))),
               cacheSet c (cacheKey msgs)
                 (.claude (generateFallbackResponse u.content.asString)), []⟩ := by
            unfold handleClaude
            simp [hv, hu, hc]
          rw [heq] at h ⊢
          simp only [HttpResponse.json.injEq, ResponseBody.cacheVal.injEq, true_and] at h
          subst h
          exact ⟨msgs, model, u, rfl, hu, cacheGet_cacheSet_self _ _ _, by simp⟩
        | true =>
          rcases hp1 : p (enhancedCall model u.content.asString) with e1 | r1
          · rcases hp2 : p (rawCall model msgs) with e2 | r2
            · have heq : handleClaude true p c b =
                  ⟨errorStatusResponse e2, c,
                   [enhancedCall model u.content.asString, rawCall model msgs]⟩ := by
                unfold handleClaude
                simp [hv, hu, hc, hp1, hp2]
              rw [heq] at h
              unfold errorStatusResponse at h
              split_ifs at h <;> simp at h
            · have heq : handleClaude true p c b =
                  ⟨.json 200 (.cacheVal (.claude (.basicR r2.text r2.usage))),
                   cacheSet c (cacheKey msgs) (.claude (.basicR r2.text r2.usage)),
                   [enhancedCall model u.content.asString, rawCall model msgs]⟩ := by
                unfold handleClaude
                simp [hv, hu, hc, hp1, hp2]
              rw [heq] at h ⊢
              simp only [HttpResponse.json.injEq, ResponseBody.cacheVal.injEq, true_and] at h
              subst h
              exact ⟨msgs, model, u, rfl, hu, cacheGet_cacheSet_self _ _ _, by simp⟩
          · have heq : handleClaude true p c b =
                ⟨.json 200 (.cacheVal (.claude (.enhancedR r1.text r1.usage u.content.asString))),
                 cacheSet c (cacheKey msgs)
                   (.claude (.enhancedR r1.text r1.usage u.content.asString)),
                 [enhancedCall model u.content.asString]⟩ := by
              unfold handleClaude
              simp [hv, hu, hc, hp1]
            rw [heq] at h ⊢
            simp only [HttpResponse.json.injEq, ResponseBody.cacheVal.injEq, true_and] at h
            subst h
            exact ⟨msgs, model, u, rfl, hu, cacheGet_cacheSet_self _ _ _, by simp⟩
      · have heq := handleClaude_hit k p c b msgs model u w hv hu hc
        rw [heq] at h ⊢
        simp only [HttpResponse.json.injEq, ResponseBody.cacheVal.injEq, true_and] at h
        subst h
        exact ⟨msgs, model, u, rfl, hu, hc, by simp⟩

/-- The per-message validator only ever produces one of its four fixed
messages. -/
theorem validateMessages_failed_mem (ms : List MsgElem) (e : String)
    (h : validateMessages ms = .failed e) :
    e = "Invalid message format: role and content required" ∨
    e = "Invalid message role" ∨
    e = "Message content must be a string" ∨
    e = "Message content too long" := by
  induction ms with
  | nil => simp [validateMessages] at h
  | cons m rest ih =>
    unfold validateMessages at h
    rcases hf : m.fields with _ | mm
    · simp [hf] at h
    · simp only [hf] at h
      split at h
      · simp only [LoopOutcome.failed.injEq] at h
        exact Or.inl h.symm
      · split at h
        · simp only [LoopOutcome.failed.injEq] at h
          exact Or.inr (Or.inl h.symm)
        · split at h
          · simp only [LoopOutcome.failed.injEq] at h
            exact Or.inr (Or.inr (Or.inl h.symm))
          · split at h
            · simp only [LoopOutcome.failed.injEq] at h
              exact Or.inr (Or.inr (Or.inr h.symm))
            · rcases hr : validateMessages rest with _ | er | msgs2
              · simp [hr] at h
              · simp only [hr, LoopOutcome.failed.injEq] at h
                subst h
                exact ih hr
              · simp [hr] at h

/-- Characterization of the validator's 400 rejection messages. -/
theorem validateClaude_reject_cases (b : ClaudeBody) (e : String)
    (h : validateClaude b = .reject e) :
    e = "Messages array is required" ∨ e = "Messages array cannot be empty" ∨
    e = "Too many messages in conversation" ∨
    (∃ elems, b.messages = some elems ∧ validateMessages elems = .failed e) ∨
    (e = "Invalid model specified" ∧ modelAllowed (effectiveModel b.model) = false) := by
  unfold validateClaude at h
  cases hm : b.messages with
  | none =>
    rw [hm] at h
    simp only [ValidateResult.reject.injEq] at h
    exact Or.inl h.symm
  | some elems =>
    rw [hm] at h
    simp only at h
    split at h
    · simp only [ValidateResult.reject.injEq] at h
      exact Or.inr (Or.inl h.symm)
    · split at h
      · simp only [ValidateResult.reject.injEq] at h
        exact Or.inr (Or.inr (Or.inl h.symm))
      · rcases hvm : validateMessages elems with _ | e0 | msgs
        · simp [hvm] at h
        · simp only [hvm, ValidateResult.reject.injEq] at h
          exact Or.inr (Or.inr (Or.inr (Or.inl ⟨elems, rfl, by rw [hvm, h]⟩)))
        · simp only [hvm] at h
          split at h
          · rename_i hallow
            simp only [ValidateResult.reject.injEq] at h
            rw [Bool.not_eq_true'] at hallow
            exact Or.inr (Or.inr (Or.inr (Or.inr ⟨h.symm, hallow⟩)))
          · simp at h

/-- Every provider call recorded by a handler run carries the validated
(defaulted) model. -/
theorem handleClaude_calls_model (k : Bool)
    (p : ProviderCall → Except ProviderError ProviderResponse)
    (c : Cache) (b : ClaudeBody) (msgs : List Message) (model : JVal)
    (call : ProviderCall)
    (hv : validateClaude b = .valid msgs model)
    (hcall : call ∈ (handleClaude k p c b).calls) :
    call.model = model := by
  unfold handleClaude at hcall
  simp only [hv] at hcall
  rcases hu : findUserMessage msgs with _ | u
  · simp [hu] at hcall
  · simp only [hu] at hcall
    rcases hc : cacheGet c (cacheKey msgs) with _ | w
    · simp only [hc] at hcall
      cases k with
      | false => simp at hcall
      | true =>
        simp only [Bool.not_true] at hcall
        rcases hp1 : p (enhancedCall model u.content.asString) with e1 | r1
        · simp only [hp1] at hcall
          rcases hp2 : p (rawCall model msgs) with e2 | r2
          · simp only [hp2] at hcall
            have hor : call = enhancedCall model u.content.asString ∨
                call = rawCall model msgs := by simpa using hcall
            rcases hor with rfl | rfl <;> rfl
          · simp only [hp2] at hcall
            have hor : call = enhancedCall model u.content.asString ∨
                call = rawCall model msgs := by simpa using hcall
            rcases hor with rfl | rfl <;> rfl
        · simp only [hp1] at hcall
          have hone : call = enhancedCall model u.content.asString := by simpa using hcall
          subst hone
          rfl
    · simp [hc] at hcall

/-! ### Concrete fixtures used by witnesses and counterexamples -/

/-- A provider that always fails with a status-less error. -/
def stubProvider : ProviderCall → Except ProviderError ProviderResponse :=
  fun _ => .error ⟨none⟩

/-- A provider that fails the single-message enhanced call and answers the
two-message retry, exercising the fallback chain. -/
def retryProvider : ProviderCall → Except ProviderError ProviderResponse :=
  fun c => if c.messages.length == 1 then .error ⟨none⟩ else .ok ⟨"ok", ⟨1, 2⟩⟩

/-- A one-message conversation fixture (validated form). -/
def msgKafe : List Message := [⟨JVal.vstr "user", JVal.vstr "кафе"⟩]

/-- The same one-message conversation as raw array elements. -/
def elemsKafe : List MsgElem := [MsgElem.obj ⟨JVal.vstr "user", JVal.vstr "кафе"⟩]

/-- A two-message conversation fixture (user + assistant). -/
def pairBody : ClaudeBody :=
  ⟨some [MsgElem.obj ⟨JVal.vstr "user", JVal.vstr "кафе"⟩,
         MsgElem.obj ⟨JVal.vstr "assistant", JVal.vstr "ок"⟩],
   JVal.vundef⟩

/-! ### Claims -/

/-- C1: the cache key is determined by the serialized messages list alone
and ignores the model: when a first request with model `m1` has answered
200 and stored/hit its entry, a second request with the same messages but
a different allowed model `m2`, within the TTL window, returns that stored
value unchanged and makes no provider call. -/
theorem claim1_cache_key_ignores_model (k : Bool)
    (p : ProviderCall → Except ProviderError ProviderResponse)
    (c : Cache) (elems : List MsgElem) (m1 m2 : String) (v : CacheVal)
    (h1 : m1 ∈ allowedModels) (h2 : m2 ∈ allowedModels) (hne : m1 ≠ m2)
    (h200 : (handleClaude k p c ⟨some elems, JVal.vstr m1⟩).response =
      .json 200 (.cacheVal v)) :
    handleClaude k p (handleClaude k p c ⟨some elems, JVal.vstr m1⟩).cache
        ⟨some elems, JVal.vstr m2⟩ =
      ⟨.json 200 (.cacheVal v),
       (handleClaude k p c ⟨some elems, JVal.vstr m1⟩).cache, []⟩ := by
  obtain ⟨msgs1, model1, u, hv, hu, hcache, -⟩ :=
    handleClaude_response_200 k p c _ v h200
  rw [validateClaude_valid_iff] at hv
  obtain ⟨elems1, hm, -, h0, h50, hvm, -⟩ := hv
  obtain rfl : elems = elems1 := by simpa using hm
  have hv2 : validateClaude ⟨some elems, JVal.vstr m2⟩ = .valid msgs1 (JVal.vstr m2) := by
    rw [validateClaude_valid_iff]
    refine ⟨elems, rfl, by simp [effectiveModel], h0, h50, hvm, ?_⟩
    rw [modelAllowed, List.any_eq_true]
    exact ⟨m2, h2, by simp⟩
  exact handleClaude_hit k p _ _ msgs1 (JVal.vstr m2) u v hv2 hu hcache

/-- Witness for C1 at a concrete request pair differing only in the model. -/
theorem claim1_witness :
    "claude-3-5-sonnet-20241022" ∈ allowedModels ∧
    "claude-3-haiku-20240307" ∈ allowedModels ∧
    ("claude-3-5-sonnet-20241022" : String) ≠ "claude-3-haiku-20240307" ∧
    (handleClaude false stubProvider []
        ⟨some elemsKafe, JVal.vstr "claude-3-5-sonnet-20241022"⟩).response =
      .json 200 (.cacheVal (.claude (generateFallbackResponse "кафе"))) ∧
    handleClaude false stubProvider
        (handleClaude false stubProvider []
          ⟨some elemsKafe, JVal.vstr "claude-3-5-sonnet-20241022"⟩).cache
        ⟨some elemsKafe, JVal.vstr "claude-3-haiku-20240307"⟩ =
      ⟨.json 200 (.cacheVal (.claude (generateFallbackResponse "кафе"))),
       (handleClaude false stubProvider []
         ⟨some elemsKafe, JVal.vstr "claude-3-5-sonnet-20241022"⟩).cache, []⟩ :=
  ⟨by decide, by decide, by decide, by rfl,
   claim1_cache_key_ignores_model false stubProvider [] elemsKafe
     "claude-3-5-sonnet-20241022" "claude-3-haiku-20240307"
     (.claude (generateFallbackResponse "кафе"))
     (by decide) (by decide) (by decide) (by rfl)⟩

/-- C3 counterexample: with a provider that fails the enhanced attempt and
answers the raw retry, the first of two identical valid requests already
invokes the provider twice, so the provider is NOT invoked at most once
across the two calls — even though the second call does return the
byte-identical cached payload. -/
theorem claim3_counterexample :
    ((handleClaude true retryProvider [] pairBody).response =
      .json 200 (.cacheVal (.claude (.basicR "ok" ⟨1, 2⟩)))) ∧
    ((handleClaude true retryProvider
        (handleClaude true retryProvider [] pairBody).cache pairBody).response =
      (handleClaude true retryProvider [] pairBody).response) ∧
    ¬ ((handleClaude true retryProvider [] pairBody).calls.length +
       (handleClaude true retryProvider
         (handleClaude true retryProvider [] pairBody).cache pairBody).calls.length ≤ 1) := by
  refine ⟨?_, ?_, ?_⟩ <;> decide

/-- C3 (amended): whenever the first of two identical requests answers 200,
the second call within the TTL window returns the byte-identical cached
payload with zero provider invocations, and the provider is invoked at
most twice across the two calls (all of them by the first). -/
theorem claim3_second_call_cached (k : Bool)
    (p : ProviderCall → Except ProviderError ProviderResponse)
    (c : Cache) (b : ClaudeBody) (v : CacheVal)
    (h : (handleClaude k p c b).response = .json 200 (.cacheVal v)) :
    handleClaude k p (handleClaude k p c b).cache b =
      ⟨.json 200 (.cacheVal v), (handleClaude k p c b).cache, []⟩ ∧
    (handleClaude k p c b).calls.length ≤ 2 := by
  obtain ⟨msgs, model, u, hv, hu, hcache, hlen⟩ :=
    handleClaude_response_200 k p c b v h
  exact ⟨handleClaude_hit k p _ b msgs model u v hv hu hcache, hlen⟩

/-- Witness for the amended C3 at the counterexample's concrete input. -/
theorem claim3_witness :
    handleClaude true retryProvider
        (handleClaude true retryProvider [] pairBody).cache pairBody =
      ⟨.json 200 (.cacheVal (.claude (.basicR "ok" ⟨1, 2⟩))),
       (handleClaude true retryProvider [] pairBody).cache, []⟩ ∧
    (handleClaude true retryProvider [] pairBody).calls.length ≤ 2 :=
  claim3_second_call_cached true retryProvider [] pairBody
    (.claude (.basicR "ok" ⟨1, 2⟩)) (by rfl)

/-- C9: a request passing every validator check whose messages carry no
user-role entry is answered 400 "No user message found" with no cache
mutation and no provider call. -/
theorem claim9_no_user_message (k : Bool)
    (p : ProviderCall → Except ProviderError ProviderResponse)
    (c : Cache) (b : ClaudeBody) (msgs : List Message) (model : JVal)
    (hv : validateClaude b = .valid msgs model)
    (hroles : ∀ m ∈ msgs, m.role ≠ JVal.vstr "user") :
    handleClaude k p c b = ⟨.json 400 (.errorMsg "No user message found"), c, []⟩ := by
  apply handleClaude_no_user k p c b msgs model hv
  unfold findUserMessage
  rw [List.find?_eq_none]
  intro m hm
  simpa using hroles m hm

/-- Witness for C9: an assistant-only conversation. -/
theorem claim9_witness :
    handleClaude true stubProvider []
        ⟨some [MsgElem.obj ⟨JVal.vstr "assistant", JVal.vstr "привет"⟩], JVal.vundef⟩ =
      ⟨.json 400 (.errorMsg "No user message found"), [], []⟩ :=
  claim9_no_user_message true stubProvider []
    ⟨some [MsgElem.obj ⟨JVal.vstr "assistant", JVal.vstr "привет"⟩], JVal.vundef⟩
    [⟨JVal.vstr "assistant", JVal.vstr "привет"⟩] (JVal.vstr defaultModel)
    (by rfl) (by decide)

/-- C10: an absent model field defaults to claude-3-5-sonnet-20241022,
which is allowed, so a request is never rejected for a missing model, and
every provider call of such a request carries the defaulted model. -/
theorem claim10_model_default (elems : List MsgElem) :
    validateClaude ⟨some elems, JVal.vundef⟩ ≠ .reject "Invalid model specified" ∧
    (∀ msgs2 model, validateClaude ⟨some elems, JVal.vundef⟩ = .valid msgs2 model →
      model = JVal.vstr defaultModel ∧ modelAllowed model = true) ∧
    (∀ p c call, call ∈ (handleClaude true p c ⟨some elems, JVal.vundef⟩).calls →
      call.model = JVal.vstr defaultModel) := by
  refine ⟨?_, ?_, ?_⟩
  · intro h
    rcases validateClaude_reject_cases _ _ h with h1 | h1 | h1 | ⟨ms, hms, hvm⟩ | ⟨-, hallow⟩
    · exact absurd h1 (by decide)
    · exact absurd h1 (by decide)
    · exact absurd h1 (by decide)
    · rcases validateMessages_failed_mem ms _ hvm with h2 | h2 | h2 | h2 <;>
        exact absurd h2 (by decide)
    · have hallow2 : modelAllowed (effectiveModel JVal.vundef) = false := hallow
      exact absurd hallow2 (by decide)
  · intro msgs2 model hok
    rw [validateClaude_valid_iff] at hok
    obtain ⟨-, -, hmodel, -, -, -, -⟩ := hok
    have hm : model = JVal.vstr defaultModel := hmodel.trans rfl
    exact ⟨hm, by rw [hm]; decide⟩
  · intro p c call hcall
    rcases hv : validateClaude ⟨some elems, JVal.vundef⟩ with e | - | ⟨msgs2, model⟩
    · rw [handleClaude_validate_reject true p c _ e hv] at hcall
      simp at hcall
    · rw [handleClaude_validate_thrown true p c _ hv] at hcall
      simp at hcall
    · have hm : model = JVal.vstr defaultModel := by
        rw [validateClaude_valid_iff] at hv
        obtain ⟨-, -, hmodel, -, -, -, -⟩ := hv
        exact hmodel.trans rfl
      subst hm
      exact handleClaude_calls_model true p c _ msgs2 _ call hv hcall

/-- Witness for C10 at a concrete conversation. -/
theorem claim10_witness :
    validateClaude ⟨some elemsKafe, JVal.vundef⟩ ≠ .reject "Invalid model specified" ∧
    (JVal.vstr defaultModel = JVal.vstr defaultModel ∧
      modelAllowed (JVal.vstr defaultModel) = true) :=
  ⟨(claim10_model_default elemsKafe).1,
   (claim10_model_default elemsKafe).2.1 msgKafe (JVal.vstr defaultModel) (by rfl)⟩

/-! ### C2: the validator against the spec's ordered check list -/

/-- Modelled from the spec's §4.1 wording, amended by the null-element
behaviour of the source: elements in order, a null (or undefined) element
throwing, otherwise the claim's checks — role and content non-empty (JS
truthiness), role in the set of the three allowed roles, content a
string, content length at most 10,000 — the first failure yielding its
specific message. -/
def specMessagesLoop : List MsgElem → LoopOutcome
  | [] => .ok []
  | e :: rest =>
    match e.fields with
    | none => .thrown
    | some m =>
      if !(m.role.truthy && m.content.truthy) then
        .failed "Invalid message format: role and content required"
      else if !(["user", "assistant", "system"].any (fun r => m.role == JVal.vstr r)) then
        .failed "Invalid message role"
      else if !m.content.isString then
        .failed "Message content must be a string"
      else if ¬(m.content.utf16Length ≤ 10000) then
        .failed "Message content too long"
      else
        match specMessagesLoop rest with
        | .ok msgs => .ok (m :: msgs)
        | r => r

/-- Modelled from the spec's §4.1 wording: messages present and a
sequence; length between 1 and 50 inclusive; each message checked in
order; model in the fixed allow-list — first failing condition
short-circuits with its specific message, a throwing element escaping. -/
def specValidate (body : ClaudeBody) : ValidateResult :=
  match body.messages with
  | none => .reject "Messages array is required"
  | some elems =>
    if elems.length < 1 then .reject "Messages array cannot be empty"
    else if elems.length > 50 then .reject "Too many messages in conversation"
    else
      match specMessagesLoop elems with
      | .thrown => .thrown
      | .failed e => .reject e
      | .ok msgs =>
        if modelAllowed (effectiveModel body.model) then .valid msgs (effectiveModel body.model)
        else .reject "Invalid model specified"

/-- The spec-ordered per-message checker agrees with the source's loop. -/
theorem specMessagesLoop_eq (ms : List MsgElem) :
    specMessagesLoop ms = validateMessages ms := by
  induction ms with
  | nil => rfl
  | cons e rest ih =>
    unfold specMessagesLoop validateMessages
    rw [ih]
    simp only [List.any_cons, List.any_nil, Bool.or_false, Bool.or_assoc, Nat.not_le]

/-- C2 counterexample: the claim, as stated over every request body, is
false — the body with messages [null] passes the array checks, but the
loop's property access on the null element throws, and the top-level
catch answers 500 "Internal server error", not the 400 the claim's first
failing condition (role and content required) would give. -/
theorem claim2_counterexample :
    handleClaude true stubProvider [] ⟨some [MsgElem.prim JVal.vnull], JVal.vundef⟩ =
      ⟨.json 500 (.errorMsg "Internal server error"), [], []⟩ ∧
    (handleClaude true stubProvider []
        ⟨some [MsgElem.prim JVal.vnull], JVal.vundef⟩).response ≠
      .json 400 (.errorMsg "Invalid message format: role and content required") := by
  refine ⟨by rfl, by decide⟩

/-- C2 (amended): for every request body whose messages-array elements
tolerate property access (no null element), the validator performs the
spec's checks in the spec's order, failing with the specific 400 message
of the first check that does not hold; a body with a null element instead
throws in the loop and is answered 500 by the top-level catch. Either
way the cache is untouched and no provider is called. -/
theorem claim2_validator_contract :
    (∀ b, validateClaude b = specValidate b) ∧
    (∀ k p c b e, validateClaude b = .reject e →
      handleClaude k p c b = ⟨.json 400 (.errorMsg e), c, []⟩) ∧
    (∀ k p c b, validateClaude b = .thrown →
      handleClaude k p c b = ⟨.json 500 (.errorMsg "Internal server error"), c, []⟩) := by
  refine ⟨?_, ?_, ?_⟩
  · intro b
    unfold validateClaude specValidate
    cases b.messages with
    | none => rfl
    | some elems =>
      simp only [Nat.lt_one_iff, specMessagesLoop_eq]
      by_cases h0 : elems.length = 0
      · simp [h0]
      · by_cases h50 : elems.length > 50
        · simp [h0, h50]
        · rw [if_neg h0, if_neg h0, if_neg h50, if_neg h50]
          rcases hvm : validateMessages elems with _ | e | msgs
          · simp only [hvm]
          · simp only [hvm]
          · simp only [hvm]
            cases hA : modelAllowed (effectiveModel b.model) <;> simp [hA]
  · intro k p c b e h
    exact handleClaude_validate_reject k p c b e h
  · intro k p c b h
    exact handleClaude_validate_thrown k p c b h

/-- Witness for C2 at a concrete invalid body (bad role) and at the
concrete throwing body. -/
theorem claim2_witness :
    validateClaude ⟨some [MsgElem.obj ⟨JVal.vstr "moderator", JVal.vstr "hi"⟩], JVal.vundef⟩ =
      specValidate ⟨some [MsgElem.obj ⟨JVal.vstr "moderator", JVal.vstr "hi"⟩], JVal.vundef⟩ ∧
    handleClaude true stubProvider []
        ⟨some [MsgElem.obj ⟨JVal.vstr "moderator", JVal.vstr "hi"⟩], JVal.vundef⟩ =
      ⟨.json 400 (.errorMsg "Invalid message role"), [], []⟩ ∧
    handleClaude false stubProvider [] ⟨some [MsgElem.prim (JVal.vnum 7)], JVal.vundef⟩ =
      ⟨.json 400 (.errorMsg "Invalid message format: role and content required"), [], []⟩ :=
  ⟨claim2_validator_contract.1 ⟨some [MsgElem.obj ⟨JVal.vstr "moderator", JVal.vstr "hi"⟩], JVal.vundef⟩,
   claim2_validator_contract.2.1 true stubProvider []
     ⟨some [MsgElem.obj ⟨JVal.vstr "moderator", JVal.vstr "hi"⟩], JVal.vundef⟩
     "Invalid message role" (by rfl),
   claim2_validator_contract.2.1 false stubProvider []
     ⟨some [MsgElem.prim (JVal.vnum 7)], JVal.vundef⟩
     "Invalid message format: role and content required" (by rfl)⟩

/-! ### C4: provider failure mapping -/

/-- A provider that always reports a 429 rate-limit error. -/
def prov429 : ProviderCall → Except ProviderError ProviderResponse :=
  fun _ => .error ⟨some 429⟩

/-- C4: when both the enhanced call and the raw retry fail, the second
error reaches the top-level handler, which answers 429 on a provider
status 429, 400 on a provider status 400 and 500 otherwise, always with a
JSON error body; the cache is untouched and exactly those two calls were
made. -/
theorem claim4_error_mapping
    (p : ProviderCall → Except ProviderError ProviderResponse)
    (c : Cache) (b : ClaudeBody) (msgs : List Message) (model : JVal)
    (u : Message) (e1 e2 : ProviderError)
    (hv : validateClaude b = .valid msgs model)
    (hu : findUserMessage msgs = some u)
    (hmiss : cacheGet c (cacheKey msgs) = none)
    (h1 : p (enhancedCall model u.content.asString) = .error e1)
    (h2 : p (rawCall model msgs) = .error e2) :
    handleClaude true p c b =
      ⟨errorStatusResponse e2, c,
       [enhancedCall model u.content.asString, rawCall model msgs]⟩ ∧
    (e2.status = some 429 →
      errorStatusResponse e2 =
        .json 429 (.errorMsg "Rate limit exceeded. Please try again later.")) ∧
    (e2.status = some 400 →
      errorStatusResponse e2 = .json 400 (.errorMsg "Invalid request format")) ∧
    (e2.status ≠ some 429 → e2.status ≠ some 400 →
      errorStatusResponse e2 = .json 500 (.errorMsg "Internal server error")) := by
  refine ⟨?_, ?_, ?_, ?_⟩
  · unfold handleClaude
    simp [hv, hu, hmiss, h1, h2]
  · intro hs
    unfold errorStatusResponse
    rw [if_pos hs]
  · intro hs
    unfold errorStatusResponse
    rw [if_neg (by simp [hs]), if_pos hs]
  · intro hs29 hs40
    unfold errorStatusResponse
    rw [if_neg hs29, if_neg hs40]

/-- Witness for C4: a provider failing both calls with status 429. -/
theorem claim4_witness :
    handleClaude true prov429 [] ⟨some elemsKafe, JVal.vundef⟩ =
      ⟨errorStatusResponse ⟨some 429⟩, [],
       [enhancedCall (JVal.vstr defaultModel) "кафе",
        rawCall (JVal.vstr defaultModel) msgKafe]⟩ ∧
    errorStatusResponse ⟨some 429⟩ =
      .json 429 (.errorMsg "Rate limit exceeded. Please try again later.") := by
  have h := claim4_error_mapping prov429 [] ⟨some elemsKafe, JVal.vundef⟩ msgKafe
    (JVal.vstr defaultModel) ⟨JVal.vstr "user", JVal.vstr "кафе"⟩
    ⟨some 429⟩ ⟨some 429⟩ (by rfl) (by rfl) (by rfl) (by rfl) (by rfl)
  exact ⟨h.1, h.2.1 rfl⟩

/-! ### C5: the offline restaurant fallback -/

/-- C5: with the provider credential unconfigured, on a cache miss where
the first user message's content q has "ресторан" in its lower-cased
text, the fallback path answers 200 with the canned payload for q, whose
content carries code 56100, whose `fallback` field is true and `enhanced`
false; the payload is cached and no provider call is made. -/
theorem claim5_restaurant_fallback
    (p : ProviderCall → Except ProviderError ProviderResponse)
    (c : Cache) (b : ClaudeBody) (msgs : List Message) (model : JVal)
    (u : Message) (q : String)
    (hv : validateClaude b = .valid msgs model)
    (hu : findUserMessage msgs = some u)
    (hq : u.content = JVal.vstr q)
    (hkw : strIncludes (jsLower q) "ресторан" = true)
    (hmiss : cacheGet c (cacheKey msgs) = none) :
    handleClaude false p c b =
      ⟨.json 200 (.cacheVal (.claude (generateFallbackResponse q))),
       cacheSet c (cacheKey msgs) (.claude (generateFallbackResponse q)), []⟩ ∧
    strIncludes (generateFallbackResponse q).contentField "56100" = true ∧
    (generateFallbackResponse q).fallbackField = some true ∧
    (generateFallbackResponse q).enhancedField = false := by
  have hgen : generateFallbackResponse q =
      Payload.offlineR
        (fallbackContentJson (restaurantResponse q) restaurantCodes restaurantSuggestions) := by
    unfold generateFallbackResponse
    rw [if_pos (by simp [hkw])]
  refine ⟨?_, ?_, ?_, ?_⟩
  · unfold handleClaude
    simp [hv, hu, hmiss, hq, JVal.asString]
  · rw [hgen]
    unfold Payload.contentField fallbackContentJson
    apply strIncludes_append_of_left
    apply strIncludes_append_of_left
    apply strIncludes_append_of_left
    apply strIncludes_append_of_left
    apply strIncludes_append_of_left
    apply strIncludes_append_of_left
    apply strIncludes_append_of_right
    decide
  · rw [hgen]
    rfl
  · rw [hgen]
    rfl

/-- Witness for C5: the query "ресторан" with an unset credential. -/
theorem claim5_witness :
    handleClaude false stubProvider []
        ⟨some [MsgElem.obj ⟨JVal.vstr "user", JVal.vstr "ресторан"⟩], JVal.vundef⟩ =
      ⟨.json 200 (.cacheVal (.claude (generateFallbackResponse "ресторан"))),
       cacheSet [] (cacheKey [⟨JVal.vstr "user", JVal.vstr "ресторан"⟩])
         (.claude (generateFallbackResponse "ресторан")), []⟩ ∧
    strIncludes (generateFallbackResponse "ресторан").contentField "56100" = true ∧
    (generateFallbackResponse "ресторан").fallbackField = some true ∧
    (generateFallbackResponse "ресторан").enhancedField = false :=
  claim5_restaurant_fallback stubProvider []
    ⟨some [MsgElem.obj ⟨JVal.vstr "user", JVal.vstr "ресторан"⟩], JVal.vundef⟩
    [⟨JVal.vstr "user", JVal.vstr "ресторан"⟩] (JVal.vstr defaultModel)
    ⟨JVal.vstr "user", JVal.vstr "ресторан"⟩ "ресторан"
    (by rfl) (by rfl) (by rfl) (by decide) (by rfl)

/-! ### C6: over-long message content -/

/-- `validateClaude` on a present messages array, unfolded once. -/
theorem validateClaude_some (elems : List MsgElem) (mv : JVal) :
    validateClaude ⟨some elems, mv⟩ =
      (if elems.length = 0 then .reject "Messages array cannot be empty"
       else if elems.length > 50 then .reject "Too many messages in conversation"
       else
         match validateMessages elems with
         | .thrown => .thrown
         | .failed e => .reject e
         | .ok msgs =>
           if !(modelAllowed (effectiveModel mv)) then .reject "Invalid model specified"
           else .valid msgs (effectiveModel mv)) := rfl

/-- A double negation on booleans, as left by an `if !(x)` split. -/
theorem bool_of_not_not (x : Bool) (h : ¬ ((!x) = true)) : x = true := by
  cases x
  · exact absurd rfl h
  · rfl

/-- Inversion of a passing loop head: the element is accessible and its
record passes every check, the tail passing as well. -/
theorem validateMessages_cons_ok (e : MsgElem) (rest : List MsgElem) (msgs : List Message)
    (h : validateMessages (e :: rest) = .ok msgs) :
    ∃ m msgs2, e.fields = some m ∧
      (m.role.truthy && m.content.truthy) = true ∧
      (m.role == JVal.vstr "user" || m.role == JVal.vstr "assistant" ||
        m.role == JVal.vstr "system") = true ∧
      m.content.isString = true ∧ m.content.utf16Length ≤ 10000 ∧
      validateMessages rest = .ok msgs2 ∧ msgs = m :: msgs2 := by
  unfold validateMessages at h
  rcases hf : e.fields with _ | m
  · simp [hf] at h
  · simp only [hf] at h
    split at h
    · simp at h
    · split at h
      · simp at h
      · split at h
        · simp at h
        · split at h
          · simp at h
          · rcases hr : validateMessages rest with _ | er | msgs2
            · simp [hr] at h
            · simp [hr] at h
            · simp only [hr, LoopOutcome.ok.injEq] at h
              rename_i hc1 hc2 hc3 hc4
              exact ⟨m, msgs2, rfl, bool_of_not_not _ hc1, bool_of_not_not _ hc2,
                bool_of_not_not _ hc3, by omega, rfl, h.symm⟩

/-- A prefix of elements that all pass lets the loop continue behind it,
prepending the prefix records to whatever the tail produces. -/
theorem validateMessages_append (pre rest : List MsgElem) (pmsgs : List Message)
    (h : validateMessages pre = .ok pmsgs) :
    validateMessages (pre ++ rest) =
      (match validateMessages rest with
       | .ok ms => .ok (pmsgs ++ ms)
       | r => r) := by
  induction pre generalizing pmsgs with
  | nil =>
    obtain rfl : pmsgs = ([] : List Message) := by
      simpa [validateMessages] using h.symm
    rcases hr : validateMessages rest with _ | er | ms <;> simp [hr]
  | cons e pre ih =>
    obtain ⟨m, msgs2, hf, h1, h2, h3, h4, hrest, rfl⟩ :=
      validateMessages_cons_ok e pre pmsgs h
    rw [List.cons_append]
    simp only [validateMessages, hf]
    rw [if_neg (by simp [h1]), if_neg (by simp [h2]), if_neg (by simp [h3]),
      if_neg (by omega), ih msgs2 hrest]
    rcases hr : validateMessages rest with _ | er | ms <;> simp [hr]

/-- C6: a request whose first failing message has valid role and truthy
string content of UTF-16 length 10,001 — every earlier element passing
all checks, the array within bounds — is answered 400 "Message content
too long", with no cache mutation and no provider call. -/
theorem claim6_content_too_long (k : Bool)
    (p : ProviderCall → Except ProviderError ProviderResponse)
    (c : Cache) (pre post : List MsgElem) (pmsgs : List Message)
    (m : Message) (mv : JVal) (s : String)
    (hpre : validateMessages pre = .ok pmsgs)
    (h1 : (m.role.truthy && m.content.truthy) = true)
    (h2 : (m.role == JVal.vstr "user" || m.role == JVal.vstr "assistant" ||
      m.role == JVal.vstr "system") = true)
    (hs : m.content = JVal.vstr s)
    (hlen : utf16Len s = 10001)
    (hcount : (pre ++ MsgElem.obj m :: post).length ≤ 50) :
    handleClaude k p c ⟨some (pre ++ MsgElem.obj m :: post), mv⟩ =
      ⟨.json 400 (.errorMsg "Message content too long"), c, []⟩ := by
  apply handleClaude_validate_reject
  rw [validateClaude_some]
  rw [if_neg (by simp), if_neg (by omega)]
  rw [validateMessages_append pre (MsgElem.obj m :: post) pmsgs hpre]
  have hmid : validateMessages (MsgElem.obj m :: post) =
      .failed "Message content too long" := by
    unfold validateMessages
    simp only [MsgElem.fields]
    rw [if_neg (by simp [h1]), if_neg (by simp [h2]),
      if_neg (by simp [hs, JVal.isString]),
      if_pos (by simp [hs, JVal.utf16Length, hlen])]
  rw [hmid]

/-- The empty-check of a 10,001-character content. -/
theorem replicate10001_isEmpty : (List.replicate 10001 'a').isEmpty = false := by
  rw [show (10001 : Nat) = 10000 + 1 from rfl, List.replicate_succ]
  rfl

/-- The UTF-16 length of n ASCII characters is n. -/
theorem utf16LenL_replicate (n : Nat) : utf16LenL (List.replicate n 'a') = n := by
  induction n with
  | zero => rfl
  | succ k ih =>
    rw [List.replicate_succ]
    unfold utf16LenL
    rw [ih, if_pos (by decide)]
    omega

/-- Witness for C6: one user message of 10,001 characters. -/
theorem claim6_witness :
    handleClaude true stubProvider []
        ⟨some [MsgElem.obj ⟨JVal.vstr "user",
           JVal.vstr (String.mk (List.replicate 10001 'a'))⟩],
         JVal.vundef⟩ =
      ⟨.json 400 (.errorMsg "Message content too long"), [], []⟩ :=
  claim6_content_too_long true stubProvider [] [] [] []
    ⟨JVal.vstr "user", JVal.vstr (String.mk (List.replicate 10001 'a'))⟩
    JVal.vundef (String.mk (List.replicate 10001 'a'))
    (by rfl)
    (by
      show (JVal.truthy (JVal.vstr "user") &&
        JVal.truthy (JVal.vstr (String.mk (List.replicate 10001 'a')))) = true
      rw [show JVal.truthy (JVal.vstr (String.mk (List.replicate 10001 'a'))) =
        !(List.replicate 10001 'a').isEmpty from rfl]
      rw [replicate10001_isEmpty]
      rfl)
    (by decide) (by rfl) (utf16LenL_replicate 10001) (by simp)

/-! ### C7: the statistics endpoint -/

/-- The statistics handler never mutates the cache. -/
theorem handleStatistics_cache (c : Cache) (code : String) :
    (handleStatistics c code).2 = c := by
  unfold handleStatistics
  split
  · rfl
  · split
    · rfl
    · split <;> rfl

/-- The shape of the caches the claude handler can leave behind. -/
theorem handleClaude_cache_cases (k : Bool)
    (p : ProviderCall → Except ProviderError ProviderResponse)
    (c : Cache) (b : ClaudeBody) :
    (handleClaude k p c b).cache = c ∨
    ∃ msgs v, (handleClaude k p c b).cache = cacheSet c (cacheKey msgs) v := by
  rcases hv : validateClaude b with e | - | ⟨msgs, model⟩
  · rw [handleClaude_validate_reject k p c b e hv]
    exact Or.inl rfl
  · rw [handleClaude_validate_thrown k p c b hv]
    exact Or.inl rfl
  · rcases hu : findUserMessage msgs with _ | u
    · rw [handleClaude_no_user k p c b msgs model hv hu]
      exact Or.inl rfl
    · rcases hc : cacheGet c (cacheKey msgs) with _ | w
      · cases k with
        | false =>
          refine Or.inr ⟨msgs, .claude (generateFallbackResponse u.content.asString), ?_⟩
          unfold handleClaude
          simp [hv, hu, hc]
        | true =>
          rcases hp1 : p (enhancedCall model u.content.asString) with e1 | r1
          · rcases hp2 : p (rawCall model msgs) with e2 | r2
            · refine Or.inl ?_
              unfold handleClaude
              simp [hv, hu, hc, hp1, hp2]
            · refine Or.inr ⟨msgs, .claude (.basicR r2.text r2.usage), ?_⟩
              unfold handleClaude
              simp [hv, hu, hc, hp1, hp2]
          · refine Or.inr
              ⟨msgs, .claude (.enhancedR r1.text r1.usage u.content.asString), ?_⟩
            unfold handleClaude
            simp [hv, hu, hc, hp1]
      · rw [handleClaude_hit k p c b msgs model u w hv hu hc]
        exact Or.inl rfl

/-- Similarly for the sections handler: untouched or one fixed new entry. -/
theorem handleSections_cache_cases (c : Cache) :
    (handleSections c).2 = c ∨
    (handleSections c).2 = cacheSet c "oked_sections" (.sections ⟨sectionsList, false⟩) := by
  unfold handleSections
  rcases h : cacheGet c "oked_sections" with _ | v
  · exact Or.inr rfl
  · exact Or.inl rfl

/-- Cache states reachable from the empty initial cache through the three
cache-touching route handlers. -/
inductive Reachable : Cache → Prop where
  | init : Reachable []
  | claudeStep (k : Bool) (p : ProviderCall → Except ProviderError ProviderResponse)
      (b : ClaudeBody) (c : Cache) :
      Reachable c → Reachable (handleClaude k p c b).cache
  | statsStep (code : String) (c : Cache) :
      Reachable c → Reachable (handleStatistics c code).2
  | sectionsStep (c : Cache) : Reachable c → Reachable (handleSections c).2

/-- No key of the cache starts with the letter s: the claude handler's
keys start with e ("enhanced_claude_..."), the sections key with o. -/
def noStatsCache (c : Cache) : Prop := ∀ kv ∈ c, kv.1.data.head? ≠ some 's'

/-- Claude cache keys start with the letter e. -/
theorem cacheKey_head (ms : List Message) : (cacheKey ms).data.head? = some 'e' := by
  unfold cacheKey
  rw [String.data_append]
  rfl

/-- Every reachable cache is free of stats keys. -/
theorem reachable_noStats (c : Cache) (h : Reachable c) : noStatsCache c := by
  induction h with
  | init => intro kv hkv; simp at hkv
  | claudeStep k p b c hc ih =>
    rcases handleClaude_cache_cases k p c b with heq | ⟨msgs, v, heq⟩
    · rw [heq]; exact ih
    · rw [heq]
      intro kv hkv
      rcases List.mem_cons.mp hkv with rfl | hmem
      · rw [cacheKey_head]
        decide
      · exact ih kv hmem
  | statsStep code c hc ih =>
    rw [handleStatistics_cache]
    exact ih
  | sectionsStep c hc ih =>
    rcases handleSections_cache_cases c with heq | heq
    · rw [heq]; exact ih
    · rw [heq]
      intro kv hkv
      rcases List.mem_cons.mp hkv with rfl | hmem
      · decide
      · exact ih kv hmem

/-- A stats-free cache never answers a `stats_`-prefixed lookup. -/
theorem noStatsCache_get (c : Cache) (h : noStatsCache c) (code : String) :
    cacheGet c ("stats_" ++ code) = none := by
  have hf : c.find? (fun e => e.1 == ("stats_" ++ code)) = none := by
    rw [List.find?_eq_none]
    intro kv hkv hbeq
    have heq : kv.1 = "stats_" ++ code := by simpa using hbeq
    have hhead := h kv hkv
    rw [heq, String.data_append] at hhead
    exact hhead rfl
  unfold cacheGet
  rw [hf]
  rfl

/-- C7: the statistics endpoint accepts exactly the codes matching
"single letter A–U (code points 65..85) or 1–5 digits"; any other code is
answered 400, and every matching code is answered with the fixed 501 stub
(in any cache the server can have reached), the cache never changing. -/
theorem claim7_statistics_stub :
    (∀ s : String, isOkedCode s = true ↔
      ((∃ ch, s.data = [ch] ∧ 65 ≤ ch.toNat ∧ ch.toNat ≤ 85) ∨
       (1 ≤ s.data.length ∧ s.data.length ≤ 5 ∧ ∀ ch ∈ s.data, ch.isDigit = true))) ∧
    (∀ c code, isOkedCode code = false →
      ∃ msg, handleStatistics c code = (.json 400 (.errorMsg msg), c)) ∧
    (∀ c code, Reachable c → isOkedCode code = true →
      handleStatistics c code = (.json 501 (.errorMsg statsStubMsg), c)) := by
  refine ⟨?_, ?_, ?_⟩
  · intro s
    unfold isOkedCode
    simp only [Bool.or_eq_true, Bool.and_eq_true, List.all_eq_true, decide_eq_true_eq]
    constructor
    · rintro (⟨hlen, hall⟩ | ⟨⟨h1, h5⟩, hall⟩)
      · obtain ⟨ch, hch⟩ := List.length_eq_one.mp hlen
        refine Or.inl ⟨ch, hch, ?_⟩
        have := hall ch (by rw [hch]; exact List.mem_singleton.mpr rfl)
        exact this
      · exact Or.inr ⟨h1, h5, hall⟩
    · rintro (⟨ch, hch, hlo, hhi⟩ | ⟨h1, h5, hall⟩)
      · refine Or.inl ⟨by rw [hch]; rfl, ?_⟩
        intro x hx
        rw [hch] at hx
        rw [List.mem_singleton.mp hx]
        exact ⟨hlo, hhi⟩
      · exact Or.inr ⟨⟨h1, h5⟩, hall⟩
  · intro c code hbad
    unfold handleStatistics
    by_cases hemp : code.data.isEmpty = true
    · exact ⟨"OKED code is required", by rw [if_pos hemp]⟩
    · exact ⟨"Invalid OKED code format", by rw [if_neg hemp, if_pos (by simp [hbad])]⟩
  · intro c code hreach hok
    have hne : code.data.isEmpty = false := by
      rcases hd : code.data with _ | ⟨a, l⟩
      · exfalso
        unfold isOkedCode at hok
        rw [hd] at hok
        simp at hok
      · rfl
    unfold handleStatistics
    rw [if_neg (by simp [hne]), if_neg (by simp [hok])]
    rw [noStatsCache_get c (reachable_noStats c hreach) code]

/-- Witness for C7: code "A" hits the 501 stub, code "ZZ" the 400. -/
theorem claim7_witness :
    handleStatistics [] "A" = (.json 501 (.errorMsg statsStubMsg), []) ∧
    ∃ msg, handleStatistics [] "ZZ" = (.json 400 (.errorMsg msg), []) :=
  ⟨claim7_statistics_stub.2.2 [] "A" Reachable.init (by decide),
   claim7_statistics_stub.2.1 [] "ZZ" (by decide)⟩

/-! ### C8: the sections endpoint -/

/-- With the sections entry absent or already holding the fixed result,
every one of n successive calls answers the fixed sections body. -/
theorem sectionsRuns_fixed (n : Nat) (c : Cache)
    (hc : cacheGet c "oked_sections" = none ∨
      cacheGet c "oked_sections" = some (.sections ⟨sectionsList, false⟩)) :
    ∀ r ∈ sectionsRuns n c,
      r = .json 200 (.cacheVal (.sections ⟨sectionsList, false⟩)) := by
  induction n generalizing c with
  | zero => intro r hr; simp [sectionsRuns] at hr
  | succ k ih =>
    intro r hr
    unfold sectionsRuns at hr
    rcases hc with hmiss | hhit
    · have h1 : handleSections c =
          (.json 200 (.cacheVal (.sections ⟨sectionsList, false⟩)),
           cacheSet c "oked_sections" (.sections ⟨sectionsList, false⟩)) := by
        unfold handleSections
        rw [hmiss]
      rw [h1] at hr
      rcases List.mem_cons.mp hr with rfl | hr2
      · rfl
      · exact ih _ (Or.inr (cacheGet_cacheSet_self c "oked_sections" _)) r hr2
    · have h1 : handleSections c =
          (.json 200 (.cacheVal (.sections ⟨sectionsList, false⟩)), c) := by
        unfold handleSections
        rw [hhit]
      rw [h1] at hr
      rcases List.mem_cons.mp hr with rfl | hr2
      · rfl
      · exact ih _ (Or.inr hhit) r hr2

/-- C8: the sections list has exactly 8 entries, and however many times
GET /api/oked/sections is called from the initial empty cache, every call
returns 200 with the same fixed body. -/
theorem claim8_sections_fixed :
    sectionsList.length = 8 ∧
    ∀ n r, r ∈ sectionsRuns n [] →
      r = .json 200 (.cacheVal (.sections ⟨sectionsList, false⟩)) := by
  refine ⟨rfl, ?_⟩
  intro n r hr
  exact sectionsRuns_fixed n [] (Or.inl rfl) r hr

/-- Witness for C8: the first call from the empty cache. -/
theorem claim8_witness :
    sectionsList.length = 8 ∧
    (handleSections []).1 = .json 200 (.cacheVal (.sections ⟨sectionsList, false⟩)) :=
  ⟨claim8_sections_fixed.1,
   claim8_sections_fixed.2 1 (handleSections []).1 (by simp [sectionsRuns])⟩
